import Mathlib

/-!
# prisma-email-service: queue consumer and render-and-send pipeline

A shallow embedding of `pkg/queue/consumer.go` (the body of the consumer loop of
`Consumer.Start`) and of `internal/services/email_service.go`
(`ProcessEmailRequest`, `validateTemplateVariables`, `handleCallback`), together
with the store lookup of `internal/repository/mongodb/template_repository.go`
and `SendEmail` of `pkg/smtp/client.go`.

Calls that leave the process (broker, template store, mail transport, callback
goroutine) are recorded, in program order, in an effect trace; the results of
those calls are inputs of the model.  `log.Printf` calls are not recorded.
-/

namespace PrismaEmail

/-! ## Go values -/

/-- Two's-complement wrap of an integer into the range of Go's `int64`
(and of `int` on 64-bit targets). -/
def wrapInt64 (x : Int) : Int := (x + 2 ^ 63) % 2 ^ 64 - 2 ^ 63

/-- Two's-complement wrap into the range of Go's `int32`. -/
def wrapInt32 (x : Int) : Int := (x + 2 ^ 31) % 2 ^ 32 - 2 ^ 31

/-- Range of Go's `int` (64-bit). -/
def inInt64 (x : Int) : Prop := -(2 ^ 63) ≤ x ∧ x < 2 ^ 63

instance (x : Int) : Decidable (inInt64 x) := by
  unfold inInt64; exact inferInstance

/-- A value decoded by `encoding/json` into `interface{}`; numbers keep their
source text. -/
inductive JSONValue where
  | null
  | bool (b : Bool)
  | number (text : String)
  | string (s : String)
  | array (xs : List JSONValue)
  | object (kvs : List (String × JSONValue))

/-- A Go `map[string]interface{}`: the entry of a key is the first pair with
that key; the nil map is the empty list. -/
abbrev Variables := List (String × JSONValue)

/-- The two-valued map read `_, exists := variables[key]`. -/
def Variables.hasKey (vars : Variables) (key : String) : Bool :=
  vars.any (fun kv => kv.1 == key)

/-- The struct `models.EmailRequest`. -/
structure EmailRequest where
  TemplateID : String
  To : List String
  Variables : Variables
  CallbackURL : String

/-- The struct `models.Template` (the timestamps are not read by the pipeline). -/
structure Template where
  ID : List Nat
  Name : String
  Subject : String
  HTMLContent : String
  TextContent : String
  Variables : List String

/-! ## `pkg/queue/consumer.go` -/

/-- The dynamic Go type and value of one field of an `amqp.Table`.  `goInt` is
Go's `int`; `byte`, `int16`, `int32`, `int64` are the fixed-width integer types
of the library's table (floating-point, decimal, time, array and nested-table
fields are left out: the consumer neither reads nor writes them). -/
inductive FieldValue where
  | nil
  | bool (b : Bool)
  | goInt (v : Int)
  | byte (v : Nat)
  | int16 (v : Int)
  | int32 (v : Int)
  | int64 (v : Int)
  | str (s : String)
  deriving DecidableEq, Repr

/-- The type `amqp.Table`. -/
abbrev Table := List (String × FieldValue)

/-- The struct `amqp.Publishing`, the fields the consumer sets. -/
structure Publishing where
  Headers : Table
  ContentType : String
  Body : List UInt8
  Expiration : String
  deriving DecidableEq, Repr

/-- The struct `amqp.Delivery`, the fields the consumer reads. -/
structure Delivery where
  Headers : Table
  Body : List UInt8
  deriving DecidableEq, Repr

/-- One externally visible call made by the consumer loop. -/
inductive Effect where
  | ProcessMessage (req : EmailRequest)
  | Publish (exchange key : String) (mandatory immediate : Bool) (msg : Publishing)
  | Ack (multiple : Bool)
  | Nack (multiple requeue : Bool)

/-- The struct `Consumer`: the declared queue's name and `maxRetries`. -/
structure Consumer where
  queueName : String
  maxRetries : Int

/-- The constants `time.Nanosecond`, `time.Microsecond`, `time.Millisecond`, `time.Second`
(a `time.Duration` counts nanoseconds). -/
def time.Nanosecond : Int := 1
def time.Microsecond : Int := 1000 * time.Nanosecond
def time.Millisecond : Int := 1000 * time.Microsecond
def time.Second : Int := 1000 * time.Millisecond

/-- The call `fmt.Sprintf("%d", v)` for an integer. -/
def sprintfD (v : Int) : String := toString v

/-- The type assertion `msg.Headers["x-retry-count"].(int)` (lines 92-95):
it succeeds only when the dynamic type of the field is Go's `int`. -/
def retryCountOf (headers : Table) : Int :=
  match headers.lookup "x-retry-count" with
  | some (FieldValue.goInt xRetry) => xRetry
  | _ => 0

/-- The retry counter a message carries, in the words of the specification: the
integer held under `x-retry-count`, in whatever integer type the field has, and
0 when the field is absent (or is not an integer). -/
def messageRetryCount (headers : Table) : Int :=
  match headers.lookup "x-retry-count" with
  | some (FieldValue.goInt v) => v
  | some (FieldValue.byte v) => v
  | some (FieldValue.int16 v) => v
  | some (FieldValue.int32 v) => v
  | some (FieldValue.int64 v) => v
  | _ => 0

/-- The publishing built at lines 104-116 from the incremented counter. -/
def retryPublishing (retryCount : Int) (body : List UInt8) : Publishing :=
  { Headers := [("x-retry-count", FieldValue.goInt retryCount)]
    ContentType := "application/json"
    Body := body
    Expiration := sprintfD (wrapInt64 (wrapInt64 time.Second * 5)) }

/-- One iteration of the `for msg := range msgs` loop of `Consumer.Start`
(lines 83-124).  `unmarshal` is `json.Unmarshal` into an `EmailRequest`
(`none` is a decoding error); `processor` is `c.processor.ProcessMessage`
(`none` is a nil error).  The result is the trace of calls made for `msg`. -/
def handleDelivery (c : Consumer)
    (unmarshal : List UInt8 → Option EmailRequest) (processor : EmailRequest → Option String)
    (msg : Delivery) : List Effect :=
  match unmarshal msg.Body with
  | none => [Effect.Nack false false]
  | some emailReq =>
    let retryCount := retryCountOf msg.Headers
    match processor emailReq with
    | some _ =>
      if retryCount ≥ c.maxRetries then
        [Effect.ProcessMessage emailReq, Effect.Nack false false]
      else
        let retryCount := wrapInt64 (retryCount + 1)
        [Effect.ProcessMessage emailReq,
         Effect.Publish "" c.queueName false false (retryPublishing retryCount msg.Body),
         Effect.Ack false]
    | none => [Effect.ProcessMessage emailReq, Effect.Ack false]

/-- The loop `for msg := range msgs` of `Consumer.Start` over the deliveries
the channel yields: each is handled in turn (`continue` moves to the next). -/
def consumerLoop (c : Consumer) (unmarshal : List UInt8 → Option EmailRequest)
    (processor : EmailRequest → Option String) : List Delivery → List Effect
  | [] => []
  | msg :: msgs =>
    handleDelivery c unmarshal processor msg ++ consumerLoop c unmarshal processor msgs

/-- The publishings of a trace, in order. -/
def published : List Effect → List Publishing
  | [] => []
  | Effect.Publish _ _ _ _ p :: es => p :: published es
  | _ :: es => published es

/-- Number of `Ack` and `Nack` calls in a trace. -/
def dispositions : List Effect → Nat
  | [] => 0
  | Effect.Ack _ :: es => dispositions es + 1
  | Effect.Nack _ _ :: es => dispositions es + 1
  | _ :: es => dispositions es

/-- Number of `ProcessMessage` calls in a trace. -/
def processCalls : List Effect → Nat
  | [] => 0
  | Effect.ProcessMessage _ :: es => processCalls es + 1
  | _ :: es => processCalls es

/-- Number of `Nack` calls in a trace. -/
def nacks : List Effect → Nat
  | [] => 0
  | Effect.Nack _ _ :: es => nacks es + 1
  | _ :: es => nacks es

/-- One table field after a trip through the broker, as the AMQP client library
(`github.com/streadway/amqp`) encodes and decodes it: `writeField` sends a Go
`int` as the 32-bit field `'I'` (`uint32(v)`), and `readField` returns an `'I'`
field as `int32`; every other field comes back with the type it was sent with. -/
def wireField : FieldValue → FieldValue
  | FieldValue.goInt v => FieldValue.int32 (wrapInt32 v)
  | f => f

/-- The delivery the broker hands to a consumer for a message published to the
queue: same body, headers field by field through `wireField`. -/
def brokerDelivery (p : Publishing) : Delivery :=
  { Headers := p.Headers.map (fun kv => (kv.1, wireField kv.2)), Body := p.Body }

/-- A transport that would hand back header values with the Go types they were
published with (no such transport exists for `amqp.Table`; used for comparison). -/
def sameTypeDelivery (p : Publishing) : Delivery :=
  { Headers := p.Headers, Body := p.Body }

/-- The consumer loop followed along one logical request: the delivery is
handled, and while handling it republishes a message, the redelivery of that
message is handled next (at most `fuel` deliveries).  The result is the
concatenated trace. -/
def retryRun (c : Consumer) (unmarshal : List UInt8 → Option EmailRequest)
    (processor : EmailRequest → Option String) (redeliver : Publishing → Delivery) :
    Nat → Delivery → List Effect
  | 0, _ => []
  | fuel + 1, msg =>
    let trace := handleDelivery c unmarshal processor msg
    match published trace with
    | p :: _ => trace ++ retryRun c unmarshal processor redeliver fuel (redeliver p)
    | [] => trace

/-! ## `internal/repository/mongodb/template_repository.go` -/

/-- The type `primitive.ObjectID`: the twelve bytes. -/
abbrev ObjectID := List Nat

/-- Outcome of `collection.FindOne(ctx, bson.M{"_id": id}).Decode(&template)`. -/
inductive FindOneResult where
  | document (template : Template)
  | ErrNoDocuments
  | failure (err : String)

/-- The method `TemplateRepository.GetTemplateByID` (lines 72-82): the pair
`(*models.Template, error)`, `none` standing for `nil`. -/
def GetTemplateByID (findOne : ObjectID → FindOneResult) (id : ObjectID) :
    Option Template × Option String :=
  match findOne id with
  | FindOneResult.document template => (some template, none)
  | FindOneResult.ErrNoDocuments => (none, none)
  | FindOneResult.failure err => (none, some err)

/-! ## `internal/services/email_service.go` -/

/-- Value of one hexadecimal digit (`encoding/hex`, `fromHexChar`). -/
def fromHexChar (c : Char) : Option Nat :=
  if '0' ≤ c ∧ c ≤ '9' then some (c.toNat - '0'.toNat)
  else if 'a' ≤ c ∧ c ≤ 'f' then some (c.toNat - 'a'.toNat + 10)
  else if 'A' ≤ c ∧ c ≤ 'F' then some (c.toNat - 'A'.toNat + 10)
  else none

/-- The function `hex.DecodeString` on the characters of the string: two digits per byte;
`none` when a character is not a hexadecimal digit or one digit is left over.
(A character outside ASCII is made of bytes above `0x7f`, none of them a digit.) -/
def hexDecode : List Char → Option (List Nat)
  | [] => some []
  | [_] => none
  | a :: b :: rest =>
    match fromHexChar a, fromHexChar b, hexDecode rest with
    | some hi, some lo, some tl => some ((hi * 16 + lo) :: tl)
    | _, _, _ => none

/-- The function `primitive.ObjectIDFromHex` of the MongoDB driver: the string must be 24
bytes long (`len(s) != 24` gives `ErrInvalidHex`) and decode as hexadecimal.
The text of the decoding error does not spell out the offending byte here. -/
def ObjectIDFromHex (s : String) : Except String ObjectID :=
  if s.utf8ByteSize ≠ 24 then
    Except.error "the provided hex string is not a valid ObjectID"
  else
    match hexDecode s.data with
    | some b => Except.ok b
    | none => Except.error "encoding/hex: invalid byte"

/-- The struct `models.EmailResponse`. -/
structure EmailResponse where
  MessageID : String
  Status : String
  SentAt : Nat

/-- One call made by `ProcessEmailRequest` to a collaborator. -/
inductive Call where
  | GetTemplateByID (id : ObjectID)
  | SendEmail (recipients : List String) (subject htmlContent textContent : String)
      (vars : Variables)
  | GoHandleCallback (callbackURL : String) (response : EmailResponse)

/-- The struct `EmailService` with the behaviour of its collaborators: the template
collection, the result of `smtpClient.SendEmail` (`none` is a nil error), and
the values `primitive.NewObjectID().Hex()` and `time.Now()` would yield. -/
structure EmailService where
  findOne : ObjectID → FindOneResult
  smtpSendEmail : List String → String → String → String → Variables → Option String
  newObjectIDHex : String
  now : Nat

/-- The loop of `validateTemplateVariables` over `template.Variables`. -/
def validateLoop (vars : Variables) : List String → Option String
  | [] => none
  | required :: rest =>
    if !vars.hasKey required then
      some ("missing required variable: " ++ required)
    else validateLoop vars rest

/-- The method `EmailService.validateTemplateVariables` (lines 81-88); `none` is nil. -/
def validateTemplateVariables (template : Template) (vars : Variables) :
    Option String :=
  validateLoop vars template.Variables

/-- The method `EmailService.ProcessEmailRequest` (lines 35-78): the returned error
(`none` is nil) and the calls made, in order. -/
def ProcessEmailRequest (s : EmailService) (req : EmailRequest) :
    Option String × List Call :=
  match ObjectIDFromHex req.TemplateID with
  | Except.error err => (some ("invalid template ID: " ++ err), [])
  | Except.ok templateID =>
    match GetTemplateByID s.findOne templateID with
    | (_, some err) =>
      (some ("failed to get template: " ++ err), [Call.GetTemplateByID templateID])
    | (none, none) => (some "template not found", [Call.GetTemplateByID templateID])
    | (some template, none) =>
      match validateTemplateVariables template req.Variables with
      | some err => (some err, [Call.GetTemplateByID templateID])
      | none =>
        let send := Call.SendEmail req.To template.Subject template.HTMLContent
          template.TextContent req.Variables
        match s.smtpSendEmail req.To template.Subject template.HTMLContent
            template.TextContent req.Variables with
        | some err =>
          (some ("failed to send email: " ++ err), [Call.GetTemplateByID templateID, send])
        | none =>
          if req.CallbackURL ≠ "" then
            (none, [Call.GetTemplateByID templateID, send,
              Call.GoHandleCallback req.CallbackURL
                { MessageID := s.newObjectIDHex, Status := "delivered", SentAt := s.now }])
          else
            (none, [Call.GetTemplateByID templateID, send])

/-- The method `EmailService.ProcessMessage` (lines 133-136). -/
def ProcessMessage (s : EmailService) (msg : EmailRequest) : Option String :=
  (ProcessEmailRequest s msg).1

/-- The `SendEmail` calls of a call list, in order. -/
def sendEmailCalls : List Call → List Call
  | [] => []
  | Call.SendEmail rcpt subject html text vars :: cs =>
    Call.SendEmail rcpt subject html text vars :: sendEmailCalls cs
  | _ :: cs => sendEmailCalls cs

/-- The callbacks started in a call list, in order. -/
def callbackCalls : List Call → List Call
  | [] => []
  | Call.GoHandleCallback url r :: cs => Call.GoHandleCallback url r :: callbackCalls cs
  | _ :: cs => callbackCalls cs

/-- The characters `encoding/hex` accepts as digits. -/
def isHexDigit (c : Char) : Bool :=
  ('0' ≤ c ∧ c ≤ '9') ∨ ('a' ≤ c ∧ c ≤ 'f') ∨ ('A' ≤ c ∧ c ≤ 'F')

/-- A well-formed ObjectID hex string: 24 characters, each a hexadecimal digit. -/
def wellFormedObjectIDHex (s : String) : Prop :=
  s.length = 24 ∧ ∀ c ∈ s.data, isHexDigit c = true

/-- One thing the callback goroutine leaves behind: the HTTP request it sends
or a line it logs. -/
inductive CallbackEffect where
  | Post (url contentType body : String)
  | Log (line : String)
  deriving DecidableEq, Repr

/-- What the callback goroutine meets: the result of `json.Marshal(response)`
and, for `s.httpClient.Post`, a network error or the status code of the reply. -/
structure CallbackEnv where
  marshal : EmailResponse → Except String String
  post : String → String → String → Except String Nat

/-- The method `EmailService.handleCallback` (lines 91-108): it returns no
value; the result here is what it sends and logs. -/
def handleCallback (env : CallbackEnv) (callbackURL : String) (response : EmailResponse) :
    List CallbackEffect :=
  match env.marshal response with
  | Except.error err => [CallbackEffect.Log ("Failed to marshal callback response: " ++ err)]
  | Except.ok body =>
    match env.post callbackURL "application/json" body with
    | Except.error err =>
      [CallbackEffect.Post callbackURL "application/json" body,
       CallbackEffect.Log ("Failed to send callback: " ++ err)]
    | Except.ok statusCode =>
      if statusCode ≠ 200 then
        [CallbackEffect.Post callbackURL "application/json" body,
         CallbackEffect.Log ("Callback failed with status: " ++ toString statusCode)]
      else
        [CallbackEffect.Post callbackURL "application/json" body]

/-- The goroutines started by a call list, each run to its end in `env`. -/
def runCallbacks (env : CallbackEnv) : List Call → List CallbackEffect
  | [] => []
  | Call.GoHandleCallback url response :: cs =>
    handleCallback env url response ++ runCallbacks env cs
  | _ :: cs => runCallbacks env cs

/-- The call `ProcessEmailRequest` together with the goroutine it may start:
the value returned to the caller, the calls made, and what the goroutine sends
and logs.  The `go` statement hands nothing of the goroutine back. -/
def ProcessEmailRequestAndCallback (s : EmailService) (env : CallbackEnv) (req : EmailRequest) :
    Option String × List Call × List CallbackEffect :=
  let result := ProcessEmailRequest s req
  (result.1, result.2, runCallbacks env result.2)

/-! ## `pkg/smtp/client.go` -/

/-- The entry of `htmlReplacementTable` of `html/template` for one character
(the character itself where the table has none). -/
def htmlReplacement (c : Char) : List Char :=
  if c = Char.ofNat 0 then [Char.ofNat 0xFFFD]
  else if c = Char.ofNat 34 then "&#34;".data
  else if c = '&' then "&amp;".data
  else if c = Char.ofNat 39 then "&#39;".data
  else if c = '+' then "&#43;".data
  else if c = '<' then "&lt;".data
  else if c = '>' then "&gt;".data
  else [c]

/-- The escaper `html/template` applies to a plain string printed by an action
in element content (`htmlEscaper`, that is `htmlReplacer` with
`htmlReplacementTable`). -/
def htmlEscaper (s : String) : String := ⟨s.data.flatMap htmlReplacement⟩

/-- A node of a parsed template: literal text, or the action printing one field
of the data. -/
inductive Node where
  | Text (text : List Char)
  | Field (ident : List Char)
  deriving DecidableEq, Repr

/-- State of the scan of a template source. -/
inductive LexState where
  | text (acc : List Char)
  | brace (acc : List Char)
  | dot
  | ident (name : List Char)
  | closing (name : List Char)

/-- The characters of a field name (ASCII letters, digits and underscore). -/
def isAlphaNumeric (c : Char) : Bool := c.isAlphanum || c = '_'

/-- A field name the lexer reads after the dot: not empty, not starting with a
digit. -/
def validName : List Char → Bool
  | [] => false
  | c :: _ => !c.isDigit

/-- Parse of the templates made of literal text without `<` and of actions of
the exact form `{{.name}}`; `none` for every other source.  On
these templates `html/template` stays in element content, where literal text is
copied and an action's value goes through `htmlEscaper`.  (Text nodes may be
empty here.) -/
def parseFrom : LexState → List Char → Option (List Node)
  | LexState.text acc, [] => some [Node.Text acc]
  | LexState.brace acc, [] => some [Node.Text (acc ++ ['\x7b'])]
  | LexState.dot, [] => none
  | LexState.ident _, [] => none
  | LexState.closing _, [] => none
  | LexState.text acc, c :: cs =>
    if c = '<' then none
    else if c = '\x7b' then parseFrom (LexState.brace acc) cs
    else parseFrom (LexState.text (acc ++ [c])) cs
  | LexState.brace acc, c :: cs =>
    if c = '\x7b' then (parseFrom LexState.dot cs).map (fun ns => Node.Text acc :: ns)
    else if c = '<' then none
    else parseFrom (LexState.text (acc ++ ['\x7b', c])) cs
  | LexState.dot, c :: cs =>
    if c = '.' then parseFrom (LexState.ident []) cs else none
  | LexState.ident name, c :: cs =>
    if isAlphaNumeric c then parseFrom (LexState.ident (name ++ [c])) cs
    else if c = '\x7d' ∧ validName name = true then parseFrom (LexState.closing name) cs
    else none
  | LexState.closing name, c :: cs =>
    if c = '\x7d' then (parseFrom (LexState.text []) cs).map (fun ns => Node.Field name :: ns)
    else none

/-- Execution of the parsed nodes on the variables: text is copied, a field
bound to a string is printed escaped; `none` when a field is unbound or bound
to a value that is not a string. -/
def execNodes (vars : Variables) : List Node → Option (List Char)
  | [] => some []
  | Node.Text t :: ns => (execNodes vars ns).map (fun out => t ++ out)
  | Node.Field f :: ns =>
    match vars.lookup ⟨f⟩ with
    | some (JSONValue.string v) =>
      (execNodes vars ns).map (fun out => (htmlEscaper v).data ++ out)
    | _ => none

/-- Result of `template.New("email").Parse(content)` followed by `Execute`. -/
inductive TemplateResult where
  | parseError (err : String)
  | executeError (err : String)
  | output (text : String)
  deriving DecidableEq, Repr

/-- Rendering by `html/template` (the only template package the file imports):
computed here on the templates `parseFrom` covers with string-valued fields,
and left to `library`, the package's behaviour on every other input. -/
def htmlTemplateRender (library : String → Variables → TemplateResult) (content : String)
    (vars : Variables) : TemplateResult :=
  match (parseFrom (LexState.text []) content.data).bind (execNodes vars) with
  | some out => TemplateResult.output ⟨out⟩
  | none => library content vars

/-- The struct `SMTPClient` (`fromAddr` is the field `from`). -/
structure SMTPClient where
  host : String
  port : Int
  username : String
  password : String
  fromAddr : String

/-- The call `smtp.SendMail(addr, auth, from, to, msg)` with
`auth = smtp.PlainAuth("", username, password, host)`. -/
structure SendMailCall where
  addr : String
  username : String
  password : String
  host : String
  fromAddr : String
  recipients : List String
  msg : String
  deriving DecidableEq, Repr

/-- The message assembled at lines 53-73 from the two rendered bodies. -/
def mimeMessage (c : SMTPClient) (recipients : List String) (subject textBody htmlBody : String) :
    String :=
  let mime := "MIME-version: 1.0;\nContent-Type: multipart/alternative; " ++
    "boundary=\x22boundary-string\x22\n\n"
  let body := "--" ++ "boundary-string" ++ "\n" ++
    "Content-Type: text/plain; charset=\x22UTF-8\x22\n" ++
    "\n" ++ textBody ++ "\n\n" ++
    "--" ++ "boundary-string" ++ "\n" ++
    "Content-Type: text/html; charset=\x22UTF-8\x22\n" ++
    "\n" ++ htmlBody ++ "\n\n" ++
    "--" ++ "boundary-string" ++ "--"
  "Subject: " ++ subject ++ "\nTo: " ++ ",".intercalate recipients ++ "\nFrom: " ++
    c.fromAddr ++ "\n" ++ mime ++ "\n" ++ body

/-- The method `SMTPClient.SendEmail` (lines 29-85): the returned error (`none`
is nil) and the `smtp.SendMail` calls made.  `sendMail` is the outcome of
`smtp.SendMail` (`none` is nil). -/
def SendEmail (c : SMTPClient) (library : String → Variables → TemplateResult)
    (sendMail : SendMailCall → Option String) (recipients : List String)
    (subject htmlContent textContent : String) (vars : Variables) :
    Option String × List SendMailCall :=
  match htmlTemplateRender library htmlContent vars with
  | TemplateResult.parseError err => (some ("failed to parse HTML template: " ++ err), [])
  | TemplateResult.executeError err => (some ("failed to execute HTML template: " ++ err), [])
  | TemplateResult.output htmlBuffer =>
    match htmlTemplateRender library textContent vars with
    | TemplateResult.parseError err => (some ("failed to parse text template: " ++ err), [])
    | TemplateResult.executeError err =>
      (some ("failed to execute text template: " ++ err), [])
    | TemplateResult.output textBuffer =>
      let call : SendMailCall :=
        { addr := c.host ++ ":" ++ sprintfD c.port
          username := c.username, password := c.password, host := c.host
          fromAddr := c.fromAddr, recipients := recipients
          msg := mimeMessage c recipients subject textBuffer htmlBuffer }
      match sendMail call with
      | some err => (some ("failed to send email: " ++ err), [call])
      | none => (none, [call])

/-- The text a reader of the `text/plain` part should get for a body made of
the literal `before`, the placeholder for `user`, and the literal `after`:
the value in place of the placeholder, character for character. -/
def plainExpansion (before value after : String) : String := before ++ value ++ after

/-- The template source made of `before`, the placeholder for `user`, `after`. -/
def userTemplate (before after : String) : String :=
  before ++ "\x7b\x7b.user\x7d\x7d" ++ after

/-- Literal text in the sense of the parse above: no left brace and no `<`. -/
def isLiteral (s : String) : Prop := ∀ c ∈ s.data, c ≠ '\x7b' ∧ c ≠ '<'

/-- The printable characters `htmlReplacementTable` replaces by an entity:
double quote, ampersand, apostrophe, plus, `<` and `>`. -/
def isHtmlSpecial (c : Char) : Bool :=
  c = Char.ofNat 34 || c = '&' || c = Char.ofNat 39 || c = '+' || c = '<' || c = '>'

/-! ## Sample inputs -/

/-- A decoder that accepts exactly the body `{}`. -/
def sampleUnmarshal (body : List UInt8) : Option EmailRequest :=
  if body = [123, 125] then
    some { TemplateID := "", To := [], Variables := [], CallbackURL := "" }
  else none

/-- A processor that fails on every request. -/
def alwaysFails (_ : EmailRequest) : Option String := some "failed to send email: refused"

/-- A processor that succeeds on every request. -/
def alwaysSucceeds (_ : EmailRequest) : Option String := none

/-- A consumer of the queue `email_queue` with the default of three retries. -/
def sampleConsumer : Consumer := { queueName := "email_queue", maxRetries := 3 }

/-- A message with body `{}` whose header `x-retry-count` is the 32-bit
integer `n`. -/
def samplePublishing (n : Int) : Publishing :=
  { Headers := [("x-retry-count", FieldValue.int32 n)], ContentType := "application/json",
    Body := [123, 125], Expiration := "" }

/-- The bytes of the identifier `507f1f77bcf86cd799439011`. -/
def sampleID : ObjectID := [80, 127, 31, 119, 188, 248, 108, 215, 153, 67, 144, 17]

/-- The template `welcome` with the one required variable `user`. -/
def sampleTemplate : Template :=
  { ID := sampleID, Name := "welcome", Subject := "Welcome",
    HTMLContent := "<p>Hello \x7b\x7b.user\x7d\x7d</p>",
    TextContent := "Hello \x7b\x7b.user\x7d\x7d", Variables := ["user"] }

/-- A service whose store holds `sampleTemplate` only and whose transport
accepts every message. -/
def sampleService : EmailService :=
  { findOne := fun id =>
      if id = sampleID then FindOneResult.document sampleTemplate
      else FindOneResult.ErrNoDocuments
    smtpSendEmail := fun _ _ _ _ _ => none
    newObjectIDHex := "65a1b2c3d4e5f60718293a4b"
    now := 0 }

/-- A request for `sampleTemplate` with the given variables. -/
def sampleRequest (vars : Variables) : EmailRequest :=
  { TemplateID := "507f1f77bcf86cd799439011", To := ["ann@example.com"],
    Variables := vars, CallbackURL := "" }

/-- A client of the mail server `smtp.example.com`. -/
def sampleClient : SMTPClient :=
  { host := "smtp.example.com", port := 587, username := "mailer", password := "secret",
    fromAddr := "noreply@example.com" }

/-- A template library that is never consulted on the sample templates. -/
def sampleLibrary (_ : String) (_ : Variables) : TemplateResult :=
  TemplateResult.parseError "not modelled"

/-- A callback endpoint that answers with status 500. -/
def failingCallbackEnv : CallbackEnv :=
  { marshal := fun r => Except.ok r.MessageID, post := fun _ _ _ => Except.ok 500 }

/-! ## Auxiliary facts -/

theorem wrapInt64_of_inInt64 (x : Int) (h : inInt64 x) : wrapInt64 x = x := by
  unfold inInt64 at h
  unfold wrapInt64
  omega

theorem published_append (xs ys : List Effect) :
    published (xs ++ ys) = published xs ++ published ys := by
  induction xs with
  | nil => rfl
  | cons e es ih => cases e <;> simp [published, ih]

theorem nacks_append (xs ys : List Effect) : nacks (xs ++ ys) = nacks xs + nacks ys := by
  induction xs with
  | nil => simp [nacks]
  | cons e es ih => cases e <;> simp [nacks, ih]; omega

theorem retryExpiration_eq (n : Int) (body : List UInt8) :
    (retryPublishing n body).Expiration = "5000000000" := by
  show sprintfD (wrapInt64 (wrapInt64 time.Second * 5)) = "5000000000"
  decide

/-- The failure branch below the maximum, with the counter as the code computes it. -/
theorem handleDelivery_retry (c : Consumer) (unmarshal : List UInt8 → Option EmailRequest)
    (processor : EmailRequest → Option String) (msg : Delivery) (req : EmailRequest)
    (err : String) (hdec : unmarshal msg.Body = some req) (herr : processor req = some err)
    (hlt : retryCountOf msg.Headers < c.maxRetries) :
    handleDelivery c unmarshal processor msg =
      [Effect.ProcessMessage req,
       Effect.Publish "" c.queueName false false
         (retryPublishing (wrapInt64 (retryCountOf msg.Headers + 1)) msg.Body),
       Effect.Ack false] := by
  have hnot : ¬ (retryCountOf msg.Headers ≥ c.maxRetries) := by omega
  simp [handleDelivery, hdec, herr, hnot]

/-- The failure branch at or above the maximum. -/
theorem handleDelivery_exhausted (c : Consumer) (unmarshal : List UInt8 → Option EmailRequest)
    (processor : EmailRequest → Option String) (msg : Delivery) (req : EmailRequest)
    (err : String) (hdec : unmarshal msg.Body = some req) (herr : processor req = some err)
    (hge : retryCountOf msg.Headers ≥ c.maxRetries) :
    handleDelivery c unmarshal processor msg =
      [Effect.ProcessMessage req, Effect.Nack false false] := by
  simp [handleDelivery, hdec, herr, hge]

/-- The success branch. -/
theorem handleDelivery_success (c : Consumer) (unmarshal : List UInt8 → Option EmailRequest)
    (processor : EmailRequest → Option String) (msg : Delivery) (req : EmailRequest)
    (hdec : unmarshal msg.Body = some req) (hok : processor req = none) :
    handleDelivery c unmarshal processor msg =
      [Effect.ProcessMessage req, Effect.Ack false] := by
  simp [handleDelivery, hdec, hok]

/-- The decoding-error branch. -/
theorem handleDelivery_undecodable (c : Consumer)
    (unmarshal : List UInt8 → Option EmailRequest)
    (processor : EmailRequest → Option String) (msg : Delivery)
    (hdec : unmarshal msg.Body = none) :
    handleDelivery c unmarshal processor msg = [Effect.Nack false false] := by
  simp [handleDelivery, hdec]

/-- A counter republished by the consumer is read as zero once it has been
through the broker. -/
theorem retryCountOf_brokerDelivery (n : Int) (body : List UInt8) :
    retryCountOf (brokerDelivery (retryPublishing n body)).Headers = 0 := by
  simp [brokerDelivery, retryPublishing, wireField, retryCountOf, List.lookup]

theorem retryRun_succ_retry (c : Consumer) (unmarshal : List UInt8 → Option EmailRequest)
    (processor : EmailRequest → Option String) (redeliver : Publishing → Delivery)
    (msg : Delivery) (req : EmailRequest) (err : String) (fuel : Nat)
    (hdec : unmarshal msg.Body = some req) (herr : processor req = some err)
    (hlt : retryCountOf msg.Headers < c.maxRetries) :
    retryRun c unmarshal processor redeliver (fuel + 1) msg =
      handleDelivery c unmarshal processor msg ++
        retryRun c unmarshal processor redeliver fuel
          (redeliver (retryPublishing (wrapInt64 (retryCountOf msg.Headers + 1)) msg.Body)) := by
  simp [retryRun, handleDelivery_retry c unmarshal processor msg req err hdec herr hlt, published]

theorem retryRun_succ_exhausted (c : Consumer) (unmarshal : List UInt8 → Option EmailRequest)
    (processor : EmailRequest → Option String) (redeliver : Publishing → Delivery)
    (msg : Delivery) (req : EmailRequest) (err : String) (fuel : Nat)
    (hdec : unmarshal msg.Body = some req) (herr : processor req = some err)
    (hge : retryCountOf msg.Headers ≥ c.maxRetries) :
    retryRun c unmarshal processor redeliver (fuel + 1) msg =
      [Effect.ProcessMessage req, Effect.Nack false false] := by
  simp [retryRun, handleDelivery_exhausted c unmarshal processor msg req err hdec herr hge,
    published]

/-- Along the broker, a failing request whose counter reads zero is republished
with counter 1 at every delivery and never rejected. -/
theorem retryRun_broker_loops (c : Consumer) (unmarshal : List UInt8 → Option EmailRequest)
    (processor : EmailRequest → Option String) (req : EmailRequest) (err : String)
    (hmax : 0 < c.maxRetries) (herr : processor req = some err) (k : Nat) :
    ∀ msg : Delivery, unmarshal msg.Body = some req → retryCountOf msg.Headers = 0 →
      published (retryRun c unmarshal processor brokerDelivery k msg) =
          List.replicate k (retryPublishing 1 msg.Body) ∧
        nacks (retryRun c unmarshal processor brokerDelivery k msg) = 0 := by
  induction k with
  | zero => intro msg _ _; exact ⟨rfl, rfl⟩
  | succ k ih =>
    intro msg hdec h0
    have hlt : retryCountOf msg.Headers < c.maxRetries := by omega
    have hw : wrapInt64 (retryCountOf msg.Headers + 1) = 1 := by rw [h0]; decide
    have hnext := ih (brokerDelivery (retryPublishing 1 msg.Body)) hdec
      (retryCountOf_brokerDelivery 1 msg.Body)
    rw [retryRun_succ_retry c unmarshal processor brokerDelivery msg req err k hdec herr hlt,
      handleDelivery_retry c unmarshal processor msg req err hdec herr hlt, hw,
      published_append, nacks_append, hnext.1, hnext.2]
    exact ⟨by simp [published, brokerDelivery, retryPublishing, List.replicate_succ], rfl⟩

/-- Were header values handed back with the Go type they were published with,
a failing request whose counter is `d` below `maxRetries` would be republished
`d` times, with counters rising by one, and then rejected. -/
theorem retryRun_sameType_exhausts (c : Consumer)
    (unmarshal : List UInt8 → Option EmailRequest)
    (processor : EmailRequest → Option String) (req : EmailRequest) (err : String)
    (hmax : inInt64 c.maxRetries) (herr : processor req = some err) (d : Nat) :
    ∀ (msg : Delivery) (extra : Nat), unmarshal msg.Body = some req →
      inInt64 (retryCountOf msg.Headers) → retryCountOf msg.Headers + d = c.maxRetries →
      published (retryRun c unmarshal processor sameTypeDelivery (d + 1 + extra) msg) =
          (List.range d).map
            (fun i : Nat => retryPublishing (retryCountOf msg.Headers + 1 + (i : Int)) msg.Body) ∧
        nacks (retryRun c unmarshal processor sameTypeDelivery (d + 1 + extra) msg) = 1 := by
  induction d with
  | zero =>
    intro msg extra hdec _ hsum
    have hge : retryCountOf msg.Headers ≥ c.maxRetries := by omega
    have hfuel : 0 + 1 + extra = extra + 1 := by omega
    rw [hfuel, retryRun_succ_exhausted c unmarshal processor sameTypeDelivery msg req err extra
      hdec herr hge]
    exact ⟨rfl, rfl⟩
  | succ d ih =>
    intro msg extra hdec hn hsum
    have hlt : retryCountOf msg.Headers < c.maxRetries := by omega
    have hw : wrapInt64 (retryCountOf msg.Headers + 1) = retryCountOf msg.Headers + 1 := by
      apply wrapInt64_of_inInt64
      unfold inInt64 at *
      omega
    have hrc : retryCountOf (sameTypeDelivery
        (retryPublishing (retryCountOf msg.Headers + 1) msg.Body)).Headers =
        retryCountOf msg.Headers + 1 := by
      simp [sameTypeDelivery, retryPublishing, retryCountOf, List.lookup]
    have hnext := ih (sameTypeDelivery (retryPublishing (retryCountOf msg.Headers + 1) msg.Body))
      extra hdec (by rw [hrc]; unfold inInt64 at *; omega) (by rw [hrc]; omega)
    have hfuel : d + 1 + 1 + extra = (d + 1 + extra) + 1 := by omega
    rw [hfuel, retryRun_succ_retry c unmarshal processor sameTypeDelivery msg req err
        (d + 1 + extra) hdec herr hlt,
      handleDelivery_retry c unmarshal processor msg req err hdec herr hlt, hw,
      published_append, nacks_append, hnext.1, hnext.2, hrc]
    refine ⟨?_, rfl⟩
    rw [List.range_succ_eq_map]
    simp [published, sameTypeDelivery, retryPublishing, Function.comp_def]
    intro a _
    omega

/-! ### Facts about the pipeline's helpers -/

theorem hasKey_iff (vars : Variables) (key : String) :
    vars.hasKey key = true ↔ ∃ val, (key, val) ∈ vars := by
  unfold Variables.hasKey
  rw [List.any_eq_true]
  constructor
  · rintro ⟨⟨k, v⟩, hmem, hk⟩
    have hk2 : k = key := by simpa using hk
    subst hk2
    exact ⟨v, hmem⟩
  · rintro ⟨val, hmem⟩
    exact ⟨(key, val), hmem, by simp⟩

theorem validateLoop_eq_none_iff (vars : Variables) (names : List String) :
    validateLoop vars names = none ↔ ∀ name ∈ names, vars.hasKey name = true := by
  induction names with
  | nil => simp [validateLoop]
  | cons n ns ih =>
    cases hk : vars.hasKey n with
    | true => simp [validateLoop, hk, ih]
    | false => simp [validateLoop, hk]

theorem validateLoop_first_missing (vars : Variables) (pre : List String) (name : String)
    (post : List String) (hpre : ∀ v ∈ pre, vars.hasKey v = true)
    (hname : vars.hasKey name = false) :
    validateLoop vars (pre ++ name :: post) =
      some ("missing required variable: " ++ name) := by
  induction pre with
  | nil => simp [validateLoop, hname]
  | cons p ps ih =>
    have hp : vars.hasKey p = true := hpre p (List.mem_cons_self _ _)
    have hps : ∀ v ∈ ps, vars.hasKey v = true :=
      fun v hv => hpre v (List.mem_cons_of_mem _ hv)
    simp [validateLoop, hp, ih hps]

theorem exists_first_missing (vars : Variables) (names : List String)
    (h : ∃ v ∈ names, vars.hasKey v = false) :
    ∃ pre name post, names = pre ++ name :: post ∧
      (∀ v ∈ pre, vars.hasKey v = true) ∧ vars.hasKey name = false := by
  induction names with
  | nil => obtain ⟨v, hv, _⟩ := h; cases hv
  | cons n ns ih =>
    cases hk : vars.hasKey n with
    | false => exact ⟨[], n, ns, rfl, by simp, hk⟩
    | true =>
      have h2 : ∃ v ∈ ns, vars.hasKey v = false := by
        obtain ⟨v, hv, hf⟩ := h
        rcases List.mem_cons.mp hv with heq | hmem
        · subst heq; rw [hk] at hf; cases hf
        · exact ⟨v, hmem, hf⟩
      obtain ⟨pre, name, post, hsplit, hpre, hname⟩ := ih h2
      refine ⟨n :: pre, name, post, by simp [hsplit], ?_, hname⟩
      intro v hv
      rcases List.mem_cons.mp hv with heq | hmem
      · subst heq; exact hk
      · exact hpre v hmem

theorem fromHexChar_isSome_iff (c : Char) :
    (fromHexChar c).isSome = true ↔ isHexDigit c = true := by
  unfold fromHexChar isHexDigit
  by_cases h1 : '0' ≤ c ∧ c ≤ '9'
  · simp [h1]
  · by_cases h2 : 'a' ≤ c ∧ c ≤ 'f'
    · simp [h1, h2]
    · by_cases h3 : 'A' ≤ c ∧ c ≤ 'F'
      · simp [h1, h2, h3]
      · simp [h1, h2, h3]

theorem hexDecode_of_digits (n : Nat) :
    ∀ cs : List Char, cs.length = 2 * n → (∀ c ∈ cs, isHexDigit c = true) →
      ∃ b, hexDecode cs = some b := by
  induction n with
  | zero =>
    intro cs hlen _
    have : cs = [] := List.length_eq_zero.mp (by omega)
    subst this
    exact ⟨[], rfl⟩
  | succ n ih =>
    intro cs hlen hall
    match cs, hlen, hall with
    | a :: b :: rest, hlen, hall =>
      have hrest : rest.length = 2 * n := by simp at hlen; omega
      obtain ⟨tl, htl⟩ := ih rest hrest
        (fun c hc => hall c (List.mem_cons_of_mem _ (List.mem_cons_of_mem _ hc)))
      have ha := (fromHexChar_isSome_iff a).mpr (hall a (List.mem_cons_self _ _))
      have hb := (fromHexChar_isSome_iff b).mpr
        (hall b (List.mem_cons_of_mem _ (List.mem_cons_self _ _)))
      obtain ⟨hi, hhi⟩ := Option.isSome_iff_exists.mp ha
      obtain ⟨lo, hlo⟩ := Option.isSome_iff_exists.mp hb
      exact ⟨(hi * 16 + lo) :: tl, by simp [hexDecode, hhi, hlo, htl]⟩
    | [], hlen, _ => simp at hlen
    | [_], hlen, _ => simp at hlen; omega

theorem digits_of_hexDecode :
    ∀ (cs : List Char) (b : List Nat), hexDecode cs = some b →
      ∀ c ∈ cs, isHexDigit c = true
  | [], _, _ => by simp
  | [_], _, h => by simp [hexDecode] at h
  | x :: y :: rest, b, h => by
    cases hx : fromHexChar x with
    | none => simp [hexDecode, hx] at h
    | some hi =>
      cases hy : fromHexChar y with
      | none => simp [hexDecode, hx, hy] at h
      | some lo =>
        cases hr : hexDecode rest with
        | none => simp [hexDecode, hx, hy, hr] at h
        | some tl =>
          intro c hc
          rcases List.mem_cons.mp hc with heq | hc
          · subst heq
            exact (fromHexChar_isSome_iff c).mp (by simp [hx])
          · rcases List.mem_cons.mp hc with heq | hc
            · subst heq
              exact (fromHexChar_isSome_iff c).mp (by simp [hy])
            · exact digits_of_hexDecode rest tl hr c hc

theorem utf8Size_of_isHexDigit (c : Char) (h : isHexDigit c = true) : c.utf8Size = 1 := by
  simp only [isHexDigit, Bool.decide_or, Bool.decide_and, Bool.or_eq_true, Bool.and_eq_true,
    decide_eq_true_eq] at h
  have hle : ∀ d : Char, c ≤ d → c.toNat ≤ d.toNat := fun d hd => hd
  have h127 : c.toNat ≤ 127 := by
    rcases h with ⟨_, h⟩ | ⟨_, h⟩ | ⟨_, h⟩
    · have := hle _ h; simp at this; omega
    · have := hle _ h; simp at this; omega
    · have := hle _ h; simp at this; omega
  unfold Char.utf8Size
  have hv : c.val ≤ 0x7F := by
    show c.val.toNat ≤ 127
    exact h127
  simp [hv]

theorem utf8ByteSize_of_digits (cs : List Char) (h : ∀ c ∈ cs, isHexDigit c = true) :
    String.utf8ByteSize.go cs = cs.length := by
  induction cs with
  | nil => rfl
  | cons c cs ih =>
    simp only [String.utf8ByteSize.go, List.length_cons]
    rw [ih (fun d hd => h d (List.mem_cons_of_mem _ hd)),
      utf8Size_of_isHexDigit c (h c (List.mem_cons_self _ _))]

/-- The driver's parser accepts exactly the well-formed identifiers. -/
theorem ObjectIDFromHex_ok_iff (s : String) :
    (∃ id, ObjectIDFromHex s = Except.ok id) ↔ wellFormedObjectIDHex s := by
  have hsize : s.utf8ByteSize = String.utf8ByteSize.go s.data := by
    cases s; rfl
  unfold wellFormedObjectIDHex ObjectIDFromHex
  constructor
  · rintro ⟨id, hid⟩
    by_cases h24 : s.utf8ByteSize ≠ 24
    · simp [h24] at hid
    · cases hd : hexDecode s.data with
      | none => simp [h24, hd] at hid
      | some b =>
        have hall := digits_of_hexDecode s.data b hd
        refine ⟨?_, hall⟩
        have := utf8ByteSize_of_digits s.data hall
        show s.data.length = 24
        omega
  · rintro ⟨hlen, hall⟩
    have h24 : s.utf8ByteSize = 24 := by
      rw [hsize, utf8ByteSize_of_digits s.data hall]
      exact hlen
    obtain ⟨b, hb⟩ := hexDecode_of_digits 12 s.data hlen hall
    exact ⟨b, by simp [h24, hb]⟩

/-- A request with a malformed identifier: no call is made. -/
theorem ProcessEmailRequest_invalid_id (s : EmailService) (req : EmailRequest) (cause : String)
    (hid : ObjectIDFromHex req.TemplateID = Except.error cause) :
    ProcessEmailRequest s req = (some ("invalid template ID: " ++ cause), []) := by
  simp [ProcessEmailRequest, hid]

/-- A request whose identifier is not in the store. -/
theorem ProcessEmailRequest_not_found (s : EmailService) (req : EmailRequest) (id : ObjectID)
    (hid : ObjectIDFromHex req.TemplateID = Except.ok id)
    (hget : GetTemplateByID s.findOne id = (none, none)) :
    ProcessEmailRequest s req = (some "template not found", [Call.GetTemplateByID id]) := by
  simp [ProcessEmailRequest, hid, hget]

/-- A request whose variables fail validation. -/
theorem ProcessEmailRequest_invalid_vars (s : EmailService) (req : EmailRequest)
    (id : ObjectID) (t : Template) (err : String)
    (hid : ObjectIDFromHex req.TemplateID = Except.ok id)
    (hfind : s.findOne id = FindOneResult.document t)
    (hval : validateTemplateVariables t req.Variables = some err) :
    ProcessEmailRequest s req = (some err, [Call.GetTemplateByID id]) := by
  simp [ProcessEmailRequest, hid, GetTemplateByID, hfind, hval]

/-- A request that passes validation: the calls made, by transport result. -/
theorem ProcessEmailRequest_valid (s : EmailService) (req : EmailRequest)
    (id : ObjectID) (t : Template)
    (hid : ObjectIDFromHex req.TemplateID = Except.ok id)
    (hfind : s.findOne id = FindOneResult.document t)
    (hval : validateTemplateVariables t req.Variables = none) :
    ∃ rest, (ProcessEmailRequest s req).2 =
        Call.GetTemplateByID id ::
          Call.SendEmail req.To t.Subject t.HTMLContent t.TextContent req.Variables :: rest ∧
      sendEmailCalls rest = [] := by
  cases hsend : s.smtpSendEmail req.To t.Subject t.HTMLContent t.TextContent req.Variables with
  | some e =>
    exact ⟨[], by simp [ProcessEmailRequest, hid, GetTemplateByID, hfind, hval, hsend], rfl⟩
  | none =>
    by_cases hcb : req.CallbackURL = ""
    · exact ⟨[], by simp [ProcessEmailRequest, hid, GetTemplateByID, hfind, hval, hsend, hcb],
        rfl⟩
    · exact ⟨[Call.GoHandleCallback req.CallbackURL
          { MessageID := s.newObjectIDHex, Status := "delivered", SentAt := s.now }],
        by simp [ProcessEmailRequest, hid, GetTemplateByID, hfind, hval, hsend, hcb], rfl⟩

/-! ## The consumer's handling of one delivery -/

/-- No field that has been through the broker has the Go type `int`. -/
theorem lookup_wire_ne_goInt (sent : Table) (key : String) (v : Int) :
    (sent.map (fun kv => (kv.1, wireField kv.2))).lookup key ≠ some (FieldValue.goInt v) := by
  induction sent with
  | nil => simp [List.lookup]
  | cons kv rest ih =>
    simp only [List.map_cons, List.lookup]
    cases hk : key == kv.1 with
    | true =>
      simp only []
      cases hf : kv.2 <;> simp [wireField]
    | false => simpa using ih

/-- The counter the consumer reads from any delivery the broker hands over is 0. -/
theorem retryCountOf_of_brokerDelivery (p : Publishing) :
    retryCountOf (brokerDelivery p).Headers = 0 := by
  have hne := lookup_wire_ne_goInt p.Headers "x-retry-count"
  have hh : (brokerDelivery p).Headers = p.Headers.map (fun kv => (kv.1, wireField kv.2)) :=
    rfl
  rw [hh]
  unfold retryCountOf
  cases hl : (p.Headers.map (fun kv => (kv.1, wireField kv.2))).lookup "x-retry-count" with
  | none => rfl
  | some f =>
    cases f with
    | goInt v => exact absurd hl (hne v)
    | nil => rfl
    | bool b => rfl
    | byte v => rfl
    | int16 v => rfl
    | int32 v => rfl
    | int64 v => rfl
    | str t => rfl

/-- A failing, decodable delivery handed over by the broker, with a positive
`maxRetries`: republished with counter 1 and acknowledged, whatever its headers. -/
theorem handleDelivery_brokerDelivery (c : Consumer)
    (unmarshal : List UInt8 → Option EmailRequest)
    (processor : EmailRequest → Option String) (p : Publishing) (req : EmailRequest)
    (err : String) (hmax : 0 < c.maxRetries) (hdec : unmarshal p.Body = some req)
    (herr : processor req = some err) :
    handleDelivery c unmarshal processor (brokerDelivery p) =
      [Effect.ProcessMessage req,
       Effect.Publish "" c.queueName false false (retryPublishing 1 p.Body),
       Effect.Ack false] := by
  have h0 := retryCountOf_of_brokerDelivery p
  have hbody : (brokerDelivery p).Body = p.Body := rfl
  have hw : wrapInt64 (retryCountOf (brokerDelivery p).Headers + 1) = 1 := by
    rw [h0]; decide
  rw [handleDelivery_retry c unmarshal processor (brokerDelivery p) req err
    (by rw [hbody]; exact hdec) herr (by rw [h0]; exact hmax), hw, hbody]

/-- C1: a decodable delivery handed over by the broker whose processing fails
is, for any `maxRetries > 0`, handled by one `Publish` to the default exchange
with the queue's own name as routing key and the same body, followed by `Ack`;
but the header published is `x-retry-count = 1` whatever counter `n` the message
carries, so it is `n + 1` only for `n = 0`: the counter is read with the type
assertion `.(int)`, which no delivered field satisfies. -/
theorem C1_republished_counter_ignores_message (c : Consumer)
    (unmarshal : List UInt8 → Option EmailRequest)
    (processor : EmailRequest → Option String) (p : Publishing) (req : EmailRequest)
    (err : String) (hmax : 0 < c.maxRetries) (hdec : unmarshal p.Body = some req)
    (herr : processor req = some err) :
    handleDelivery c unmarshal processor (brokerDelivery p) =
        [Effect.ProcessMessage req,
         Effect.Publish "" c.queueName false false (retryPublishing 1 p.Body),
         Effect.Ack false] ∧
      (retryPublishing 1 p.Body).Body = p.Body ∧
      (retryPublishing 1 p.Body).Headers = [("x-retry-count", FieldValue.goInt 1)] ∧
      (messageRetryCount (brokerDelivery p).Headers ≠ 0 →
        published (handleDelivery c unmarshal processor (brokerDelivery p)) ≠
          [retryPublishing (messageRetryCount (brokerDelivery p).Headers + 1) p.Body]) := by
  have h := handleDelivery_brokerDelivery c unmarshal processor p req err hmax hdec herr
  refine ⟨h, rfl, rfl, ?_⟩
  intro hn heq
  rw [h] at heq
  simp only [published, retryPublishing, List.cons.injEq, Publishing.mk.injEq, Prod.mk.injEq,
    FieldValue.goInt.injEq, and_true, true_and] at heq
  omega

theorem C1_witness :
    handleDelivery sampleConsumer sampleUnmarshal alwaysFails
        (brokerDelivery (samplePublishing 2)) =
      [Effect.ProcessMessage { TemplateID := "", To := [], Variables := [], CallbackURL := "" },
       Effect.Publish "" "email_queue" false false (retryPublishing 1 [123, 125]),
       Effect.Ack false] ∧
    messageRetryCount (brokerDelivery (samplePublishing 2)).Headers = 2 ∧
    (2 : Int) < sampleConsumer.maxRetries ∧
    (retryPublishing 1 [123, 125]).Headers ≠ [("x-retry-count", FieldValue.goInt (2 + 1))] :=
  ⟨(C1_republished_counter_ignores_message sampleConsumer sampleUnmarshal alwaysFails
      (samplePublishing 2)
      { TemplateID := "", To := [], Variables := [], CallbackURL := "" }
      "failed to send email: refused" (by decide)
      (by simp [sampleUnmarshal, samplePublishing]) rfl).1,
    by simp [messageRetryCount, brokerDelivery, samplePublishing, wireField, List.lookup],
    by decide, by decide⟩

/-- C2: a decodable delivery handed over by the broker whose processing fails
and whose message counter is at or above `maxRetries > 0` is not rejected: the
counter is read as 0, so the message is republished with counter 1 and
acknowledged, and no `Nack` is issued. -/
theorem C2_exhausted_message_is_republished (c : Consumer)
    (unmarshal : List UInt8 → Option EmailRequest)
    (processor : EmailRequest → Option String) (p : Publishing) (req : EmailRequest)
    (err : String) (hmax : 0 < c.maxRetries) (hdec : unmarshal p.Body = some req)
    (herr : processor req = some err)
    (_hge : messageRetryCount (brokerDelivery p).Headers ≥ c.maxRetries) :
    handleDelivery c unmarshal processor (brokerDelivery p) ≠
        [Effect.ProcessMessage req, Effect.Nack false false] ∧
      nacks (handleDelivery c unmarshal processor (brokerDelivery p)) = 0 ∧
      published (handleDelivery c unmarshal processor (brokerDelivery p)) =
        [retryPublishing 1 p.Body] := by
  rw [handleDelivery_brokerDelivery c unmarshal processor p req err hmax hdec herr]
  refine ⟨?_, rfl, rfl⟩
  intro heq
  simp at heq

theorem C2_witness :
    messageRetryCount (brokerDelivery (samplePublishing 3)).Headers ≥
        sampleConsumer.maxRetries ∧
    nacks (handleDelivery sampleConsumer sampleUnmarshal alwaysFails
        (brokerDelivery (samplePublishing 3))) = 0 ∧
    published (handleDelivery sampleConsumer sampleUnmarshal alwaysFails
        (brokerDelivery (samplePublishing 3))) =
      [retryPublishing 1 [123, 125]] :=
  ⟨by simp [messageRetryCount, brokerDelivery, samplePublishing, wireField, List.lookup,
      sampleConsumer],
    (C2_exhausted_message_is_republished sampleConsumer sampleUnmarshal alwaysFails
      (samplePublishing 3)
      { TemplateID := "", To := [], Variables := [], CallbackURL := "" }
      "failed to send email: refused" (by decide)
      (by simp [sampleUnmarshal, samplePublishing]) rfl
      (by simp [messageRetryCount, brokerDelivery, samplePublishing, wireField, List.lookup,
        sampleConsumer])).2⟩

/-- C5: a message whose body does not decode is handled by `Nack(false, false)`
alone (no `ProcessMessage` call, nothing published), and the loop goes on with
the deliveries that follow. -/
theorem C5_undecodable_rejected (c : Consumer)
    (unmarshal : List UInt8 → Option EmailRequest)
    (processor : EmailRequest → Option String) (msg : Delivery) (msgs : List Delivery)
    (hdec : unmarshal msg.Body = none) :
    handleDelivery c unmarshal processor msg = [Effect.Nack false false] ∧
      processCalls (handleDelivery c unmarshal processor msg) = 0 ∧
      published (handleDelivery c unmarshal processor msg) = [] ∧
      consumerLoop c unmarshal processor (msg :: msgs) =
        Effect.Nack false false :: consumerLoop c unmarshal processor msgs := by
  have h : handleDelivery c unmarshal processor msg = [Effect.Nack false false] := by
    simp [handleDelivery, hdec]
  refine ⟨h, ?_, ?_, ?_⟩
  · rw [h]; rfl
  · rw [h]; rfl
  · simp [consumerLoop, h]

theorem C5_witness :
    handleDelivery sampleConsumer sampleUnmarshal alwaysSucceeds
        { Headers := [], Body := [110, 111] } = [Effect.Nack false false] ∧
      processCalls (handleDelivery sampleConsumer sampleUnmarshal alwaysSucceeds
        { Headers := [], Body := [110, 111] }) = 0 ∧
      published (handleDelivery sampleConsumer sampleUnmarshal alwaysSucceeds
        { Headers := [], Body := [110, 111] }) = [] ∧
      consumerLoop sampleConsumer sampleUnmarshal alwaysSucceeds
          ({ Headers := [], Body := [110, 111] } :: [{ Headers := [], Body := [123, 125] }]) =
        Effect.Nack false false :: consumerLoop sampleConsumer sampleUnmarshal alwaysSucceeds
          [{ Headers := [], Body := [123, 125] }] :=
  C5_undecodable_rejected sampleConsumer sampleUnmarshal alwaysSucceeds
    { Headers := [], Body := [110, 111] } [{ Headers := [], Body := [123, 125] }]
    (by simp [sampleUnmarshal])

/-- C6: whatever the outcome, the trace of one delivery holds exactly one
disposition call (`Ack` or `Nack`), and it is the last call of the trace; when
the body decodes the trace starts with the `ProcessMessage` call, which is the
only one; and when `ProcessMessage` returns no error the trace is that call
followed by `Ack`, with nothing published. -/
theorem C6_exactly_one_disposition (c : Consumer)
    (unmarshal : List UInt8 → Option EmailRequest)
    (processor : EmailRequest → Option String) (msg : Delivery) :
    dispositions (handleDelivery c unmarshal processor msg) = 1 ∧
      (∃ front last, handleDelivery c unmarshal processor msg = front ++ [last] ∧
        dispositions front = 0 ∧
        (last = Effect.Ack false ∨ last = Effect.Nack false false)) ∧
      (∀ req, unmarshal msg.Body = some req →
        ∃ rest, handleDelivery c unmarshal processor msg = Effect.ProcessMessage req :: rest ∧
          processCalls rest = 0) ∧
      (∀ req, unmarshal msg.Body = some req → processor req = none →
        handleDelivery c unmarshal processor msg =
          [Effect.ProcessMessage req, Effect.Ack false] ∧
        published (handleDelivery c unmarshal processor msg) = []) := by
  cases hdec : unmarshal msg.Body with
  | none =>
    rw [handleDelivery_undecodable c unmarshal processor msg hdec]
    refine ⟨rfl, ⟨[], Effect.Nack false false, rfl, rfl, Or.inr rfl⟩, ?_, ?_⟩
    · intro req h; cases h
    · intro req h; cases h
  | some emailReq =>
    cases herr : processor emailReq with
    | none =>
      rw [handleDelivery_success c unmarshal processor msg emailReq hdec herr]
      refine ⟨rfl, ⟨[Effect.ProcessMessage emailReq], Effect.Ack false, rfl, rfl, Or.inl rfl⟩,
        ?_, ?_⟩
      · intro req h
        cases h
        exact ⟨[Effect.Ack false], rfl, rfl⟩
      · intro req h _
        cases h
        exact ⟨rfl, rfl⟩
    | some e =>
      by_cases hge : retryCountOf msg.Headers ≥ c.maxRetries
      · rw [handleDelivery_exhausted c unmarshal processor msg emailReq e hdec herr hge]
        refine ⟨rfl, ⟨[Effect.ProcessMessage emailReq], Effect.Nack false false, rfl, rfl,
            Or.inr rfl⟩, ?_, ?_⟩
        · intro req h
          cases h
          exact ⟨[Effect.Nack false false], rfl, rfl⟩
        · intro req h hnone
          cases h
          rw [herr] at hnone
          cases hnone
      · rw [handleDelivery_retry c unmarshal processor msg emailReq e hdec herr (by omega)]
        refine ⟨rfl,
          ⟨[Effect.ProcessMessage emailReq,
              Effect.Publish "" c.queueName false false
                (retryPublishing (wrapInt64 (retryCountOf msg.Headers + 1)) msg.Body)],
            Effect.Ack false, rfl, rfl, Or.inl rfl⟩, ?_, ?_⟩
        · intro req h
          cases h
          exact ⟨[Effect.Publish "" c.queueName false false
                (retryPublishing (wrapInt64 (retryCountOf msg.Headers + 1)) msg.Body),
              Effect.Ack false], rfl, rfl⟩
        · intro req h hnone
          cases h
          rw [herr] at hnone
          cases hnone

theorem C6_witness :
    handleDelivery sampleConsumer sampleUnmarshal alwaysSucceeds
        { Headers := [], Body := [123, 125] } =
      [Effect.ProcessMessage { TemplateID := "", To := [], Variables := [], CallbackURL := "" },
       Effect.Ack false] ∧
    published (handleDelivery sampleConsumer sampleUnmarshal alwaysSucceeds
        { Headers := [], Body := [123, 125] }) = [] :=
  (C6_exactly_one_disposition sampleConsumer sampleUnmarshal alwaysSucceeds
    { Headers := [], Body := [123, 125] }).2.2.2
    { TemplateID := "", To := [], Variables := [], CallbackURL := "" }
    (by simp [sampleUnmarshal]) rfl

/-- C7: the `Expiration` of every republished message is the decimal text of
`int64(time.Second) * 5`, a count of nanoseconds: the string `5000000000`,
whatever the counter, and not the string `5000` that stands for five seconds
in milliseconds. -/
theorem C7_expiration_is_nanosecond_count :
    (∀ (n : Int) (body : List UInt8), (retryPublishing n body).Expiration = "5000000000") ∧
      (published (handleDelivery sampleConsumer sampleUnmarshal alwaysFails
          { Headers := [], Body := [123, 125] })).map Publishing.Expiration =
        ["5000000000"] ∧
      sprintfD (5 * 1000) = "5000" ∧
      (∀ (n : Int) (body : List UInt8), (retryPublishing n body).Expiration ≠ "5000") := by
  refine ⟨retryExpiration_eq, ?_, by decide, ?_⟩
  · rw [handleDelivery_retry sampleConsumer sampleUnmarshal alwaysFails
      { Headers := [], Body := [123, 125] }
      { TemplateID := "", To := [], Variables := [], CallbackURL := "" }
      "failed to send email: refused" (by simp [sampleUnmarshal]) rfl (by decide)]
    simp [published, retryExpiration_eq]
  · intro n body
    rw [retryExpiration_eq]
    decide

/-- C4: the counter the consumer uses is 0 when the header is absent and `n`
when the header holds a Go `int` `n`; for a header of any other integer type
(`int32`, `int64`, `int16`, `byte`) the type assertion fails and the counter is
0 whatever the value, and this is the case of every counter the consumer
itself republished, which the broker delivers as `int32`. -/
theorem C4_counter_read_only_from_go_int :
    (∀ headers : Table, headers.lookup "x-retry-count" = none → retryCountOf headers = 0) ∧
      (∀ (headers : Table) (n : Int),
        headers.lookup "x-retry-count" = some (FieldValue.goInt n) →
          retryCountOf headers = n) ∧
      (∀ (headers : Table) (n : Int),
        headers.lookup "x-retry-count" = some (FieldValue.int32 n) ∨
          headers.lookup "x-retry-count" = some (FieldValue.int64 n) ∨
          headers.lookup "x-retry-count" = some (FieldValue.int16 n) →
          retryCountOf headers = 0) ∧
      (∀ (n : Int) (body : List UInt8),
        (brokerDelivery (retryPublishing n body)).Headers =
            [("x-retry-count", FieldValue.int32 (wrapInt32 n))] ∧
          retryCountOf (brokerDelivery (retryPublishing n body)).Headers = 0) ∧
      retryCountOf [("x-retry-count", FieldValue.int32 1)] = 0 := by
  refine ⟨?_, ?_, ?_, ?_, ?_⟩
  · intro headers h
    simp [retryCountOf, h]
  · intro headers n h
    simp [retryCountOf, h]
  · intro headers n h
    rcases h with h | h | h <;> simp [retryCountOf, h]
  · intro n body
    exact ⟨by simp [brokerDelivery, retryPublishing, wireField],
      retryCountOf_brokerDelivery n body⟩
  · simp [retryCountOf, List.lookup]

theorem C4_witness :
    retryCountOf [("x-retry-count", FieldValue.int32 1)] = 0 ∧
      retryCountOf [("x-retry-count", FieldValue.goInt 1)] = 1 ∧
      retryCountOf [("content-type", FieldValue.str "json")] = 0 :=
  ⟨C4_counter_read_only_from_go_int.2.2.1 [("x-retry-count", FieldValue.int32 1)] 1
      (Or.inl (by simp [List.lookup])),
    C4_counter_read_only_from_go_int.2.1 [("x-retry-count", FieldValue.goInt 1)] 1
      (by simp [List.lookup]),
    C4_counter_read_only_from_go_int.1 [("content-type", FieldValue.str "json")]
      (by simp [List.lookup])⟩

/-- C3: with redeliveries as the broker makes them, a decodable request whose
processing fails every time and whose counter reads zero is, for any
`maxRetries > 0`, republished at each of its deliveries, always with counter 1,
and never rejected: after `k` deliveries there are `k` republished messages and
no `Nack`. -/
theorem C3_retry_never_exhausts (c : Consumer)
    (unmarshal : List UInt8 → Option EmailRequest)
    (processor : EmailRequest → Option String) (msg : Delivery) (req : EmailRequest)
    (err : String) (hmax : 0 < c.maxRetries) (hdec : unmarshal msg.Body = some req)
    (herr : processor req = some err) (h0 : retryCountOf msg.Headers = 0) (k : Nat) :
    published (retryRun c unmarshal processor brokerDelivery k msg) =
        List.replicate k (retryPublishing 1 msg.Body) ∧
      nacks (retryRun c unmarshal processor brokerDelivery k msg) = 0 :=
  retryRun_broker_loops c unmarshal processor req err hmax herr k msg hdec h0

theorem C3_witness :
    published (retryRun sampleConsumer sampleUnmarshal alwaysFails brokerDelivery 10
        { Headers := [], Body := [123, 125] }) =
        List.replicate 10 (retryPublishing 1 [123, 125]) ∧
      nacks (retryRun sampleConsumer sampleUnmarshal alwaysFails brokerDelivery 10
        { Headers := [], Body := [123, 125] }) = 0 :=
  C3_retry_never_exhausts sampleConsumer sampleUnmarshal alwaysFails
    { Headers := [], Body := [123, 125] }
    { TemplateID := "", To := [], Variables := [], CallbackURL := "" }
    "failed to send email: refused" (by decide) (by simp [sampleUnmarshal]) rfl
    (by simp [retryCountOf, List.lookup]) 10

/-! ## The render-and-send pipeline -/

/-- C8: when the identifier resolves to a stored template and some name of the
template's `Variables` is not a key of the request's mapping, the list splits
at the first such name (every name before it is a key), `ProcessEmailRequest`
returns the error `missing required variable: <name>` for that name, and the
only call made is the store lookup: no `SendEmail`, no callback. -/
theorem C8_first_missing_variable_reported (s : EmailService) (req : EmailRequest)
    (id : ObjectID) (t : Template)
    (hid : ObjectIDFromHex req.TemplateID = Except.ok id)
    (hfind : s.findOne id = FindOneResult.document t)
    (hmiss : ∃ v ∈ t.Variables, ¬ ∃ val, (v, val) ∈ req.Variables) :
    ∃ pre name post, t.Variables = pre ++ name :: post ∧
      (∀ v ∈ pre, ∃ val, (v, val) ∈ req.Variables) ∧
      (¬ ∃ val, (name, val) ∈ req.Variables) ∧
      ProcessEmailRequest s req =
        (some ("missing required variable: " ++ name), [Call.GetTemplateByID id]) ∧
      sendEmailCalls (ProcessEmailRequest s req).2 = [] ∧
      callbackCalls (ProcessEmailRequest s req).2 = [] := by
  have hmiss2 : ∃ v ∈ t.Variables, req.Variables.hasKey v = false := by
    obtain ⟨v, hv, hno⟩ := hmiss
    refine ⟨v, hv, ?_⟩
    cases hk : req.Variables.hasKey v with
    | false => rfl
    | true => exact absurd ((hasKey_iff req.Variables v).mp hk) hno
  obtain ⟨pre, name, post, hsplit, hpre, hname⟩ :=
    exists_first_missing req.Variables t.Variables hmiss2
  have hval : validateTemplateVariables t req.Variables =
      some ("missing required variable: " ++ name) := by
    unfold validateTemplateVariables
    rw [hsplit]
    exact validateLoop_first_missing req.Variables pre name post hpre hname
  have hres := ProcessEmailRequest_invalid_vars s req id t _ hid hfind hval
  refine ⟨pre, name, post, hsplit, fun v hv => (hasKey_iff req.Variables v).mp (hpre v hv),
    ?_, hres, ?_, ?_⟩
  · intro hex
    rw [(hasKey_iff req.Variables name).mpr hex] at hname
    cases hname
  · rw [hres]; rfl
  · rw [hres]; rfl

theorem C8_witness :
    ProcessEmailRequest sampleService (sampleRequest []) =
      (some "missing required variable: user", [Call.GetTemplateByID sampleID]) := by
  obtain ⟨pre, name, post, hsplit, _, _, hres, _, _⟩ :=
    C8_first_missing_variable_reported sampleService (sampleRequest []) sampleID sampleTemplate
      rfl rfl ⟨"user", by simp [sampleTemplate], by simp [sampleRequest]⟩
  cases pre with
  | nil =>
    have hname : name = "user" := by
      simp [sampleTemplate] at hsplit
      exact hsplit.1.symm
    subst hname
    exact hres
  | cons a pre =>
    simp [sampleTemplate] at hsplit

/-- C9: `validateTemplateVariables` returns nil exactly when every name of the
template's `Variables` is a key of the mapping (with any value, and whatever
other keys the mapping has); and a request whose identifier resolves and that
passes it makes, after the store lookup, exactly one `SendEmail` call, with the
request's recipients and variables and the template's subject, HTML content
and text content. -/
theorem C9_validation_then_one_send (s : EmailService) (req : EmailRequest) (t : Template) :
    (validateTemplateVariables t req.Variables = none ↔
        ∀ name ∈ t.Variables, ∃ val, (name, val) ∈ req.Variables) ∧
      (∀ id : ObjectID, ObjectIDFromHex req.TemplateID = Except.ok id →
        s.findOne id = FindOneResult.document t →
        validateTemplateVariables t req.Variables = none →
        (∃ rest, (ProcessEmailRequest s req).2 =
          Call.GetTemplateByID id ::
            Call.SendEmail req.To t.Subject t.HTMLContent t.TextContent req.Variables ::
              rest) ∧
        sendEmailCalls (ProcessEmailRequest s req).2 =
          [Call.SendEmail req.To t.Subject t.HTMLContent t.TextContent req.Variables]) := by
  constructor
  · unfold validateTemplateVariables
    rw [validateLoop_eq_none_iff]
    constructor
    · intro h name hn
      exact (hasKey_iff req.Variables name).mp (h name hn)
    · intro h name hn
      exact (hasKey_iff req.Variables name).mpr (h name hn)
  · intro id hid hfind hval
    obtain ⟨rest, hcalls, hrest⟩ := ProcessEmailRequest_valid s req id t hid hfind hval
    refine ⟨⟨rest, hcalls⟩, ?_⟩
    rw [hcalls]
    simp [sendEmailCalls, hrest]

theorem C9_witness :
    sendEmailCalls (ProcessEmailRequest sampleService
        (sampleRequest [("user", JSONValue.null), ("extra", JSONValue.string "x")])).2 =
      [Call.SendEmail ["ann@example.com"] "Welcome" "<p>Hello \x7b\x7b.user\x7d\x7d</p>"
        "Hello \x7b\x7b.user\x7d\x7d"
        [("user", JSONValue.null), ("extra", JSONValue.string "x")]] :=
  ((C9_validation_then_one_send sampleService
      (sampleRequest [("user", JSONValue.null), ("extra", JSONValue.string "x")])
      sampleTemplate).2 sampleID rfl rfl
    ((C9_validation_then_one_send sampleService
      (sampleRequest [("user", JSONValue.null), ("extra", JSONValue.string "x")])
      sampleTemplate).1.mpr
      (by simp [sampleTemplate, sampleRequest]))).2

/-- C10: `ProcessEmailRequest` first parses the identifier, which succeeds
exactly for strings of 24 hexadecimal characters: for any other string it
returns an error starting `invalid template ID: ` and makes no call at all;
for a parsed identifier for which the store returns no template and no error it
returns `template not found`, the store lookup being the only call made. -/
theorem C10_identifier_checked_before_lookup (s : EmailService) (req : EmailRequest) :
    (wellFormedObjectIDHex req.TemplateID ↔
        ∃ id, ObjectIDFromHex req.TemplateID = Except.ok id) ∧
      (¬ wellFormedObjectIDHex req.TemplateID →
        ∃ cause, ProcessEmailRequest s req =
          (some ("invalid template ID: " ++ cause), [])) ∧
      (∀ id : ObjectID, ObjectIDFromHex req.TemplateID = Except.ok id →
        GetTemplateByID s.findOne id = (none, none) →
        ProcessEmailRequest s req =
          (some "template not found", [Call.GetTemplateByID id])) := by
  refine ⟨(ObjectIDFromHex_ok_iff req.TemplateID).symm, ?_, ?_⟩
  · intro hbad
    cases hid : ObjectIDFromHex req.TemplateID with
    | error cause => exact ⟨cause, ProcessEmailRequest_invalid_id s req cause hid⟩
    | ok id => exact absurd ((ObjectIDFromHex_ok_iff req.TemplateID).mp ⟨id, hid⟩) hbad
  · intro id hid hget
    exact ProcessEmailRequest_not_found s req id hid hget

theorem C10_witness :
    (∃ cause, ProcessEmailRequest sampleService
        { TemplateID := "welcome", To := [], Variables := [], CallbackURL := "" } =
          (some ("invalid template ID: " ++ cause), [])) ∧
      ProcessEmailRequest sampleService
        { TemplateID := "000000000000000000000000", To := [], Variables := [],
          CallbackURL := "" } =
        (some "template not found",
          [Call.GetTemplateByID [0, 0, 0, 0, 0, 0, 0, 0, 0, 0, 0, 0]]) :=
  ⟨(C10_identifier_checked_before_lookup sampleService
      { TemplateID := "welcome", To := [], Variables := [], CallbackURL := "" }).2.1
      (by unfold wellFormedObjectIDHex; decide),
    (C10_identifier_checked_before_lookup sampleService
      { TemplateID := "000000000000000000000000", To := [], Variables := [],
        CallbackURL := "" }).2.2 [0, 0, 0, 0, 0, 0, 0, 0, 0, 0, 0, 0] rfl rfl⟩

/-! ## The callback and the returned value -/

theorem ProcessEmailRequest_fst_callback (s : EmailService) (req : EmailRequest)
    (url : String) :
    (ProcessEmailRequest s { req with CallbackURL := url }).1 =
      (ProcessEmailRequest s req).1 := by
  unfold ProcessEmailRequest
  cases ObjectIDFromHex req.TemplateID with
  | error e => rfl
  | ok id =>
    simp only [GetTemplateByID]
    cases s.findOne id with
    | failure e => rfl
    | ErrNoDocuments => rfl
    | document t =>
      simp only []
      cases validateTemplateVariables t req.Variables with
      | some e => rfl
      | none =>
        simp only []
        cases s.smtpSendEmail req.To t.Subject t.HTMLContent t.TextContent req.Variables with
        | some e => rfl
        | none =>
          by_cases h1 : url = "" <;> by_cases h2 : req.CallbackURL = "" <;> simp [h1, h2]

/-- The returned error is nil exactly when the pipeline got to the transport
and the transport returned nil. -/
theorem ProcessEmailRequest_nil_iff (s : EmailService) (req : EmailRequest) :
    (ProcessEmailRequest s req).1 = none ↔
      ∃ id t, ObjectIDFromHex req.TemplateID = Except.ok id ∧
        s.findOne id = FindOneResult.document t ∧
        validateTemplateVariables t req.Variables = none ∧
        s.smtpSendEmail req.To t.Subject t.HTMLContent t.TextContent req.Variables = none := by
  unfold ProcessEmailRequest
  cases hid : ObjectIDFromHex req.TemplateID with
  | error e => simp
  | ok id =>
    simp only [GetTemplateByID]
    cases hfind : s.findOne id with
    | failure e => simp [hfind]
    | ErrNoDocuments => simp [hfind]
    | document t =>
      simp only []
      cases hval : validateTemplateVariables t req.Variables with
      | some e => simp [hfind, hval]
      | none =>
        simp only []
        cases hsend : s.smtpSendEmail req.To t.Subject t.HTMLContent t.TextContent
            req.Variables with
        | some e => simp [hfind, hval, hsend]
        | none =>
          by_cases h2 : req.CallbackURL = "" <;> simp [h2, hfind, hval, hsend]

/-- The callbacks started, by returned value and callback URL. -/
theorem callbackCalls_ProcessEmailRequest (s : EmailService) (req : EmailRequest) :
    callbackCalls (ProcessEmailRequest s req).2 =
      if (ProcessEmailRequest s req).1 = none ∧ req.CallbackURL ≠ "" then
        [Call.GoHandleCallback req.CallbackURL
          { MessageID := s.newObjectIDHex, Status := "delivered", SentAt := s.now }]
      else [] := by
  cases hid : ObjectIDFromHex req.TemplateID with
  | error e => simp [ProcessEmailRequest, hid, callbackCalls]
  | ok id =>
    cases hfind : s.findOne id with
    | failure e => simp [ProcessEmailRequest, hid, GetTemplateByID, hfind, callbackCalls]
    | ErrNoDocuments => simp [ProcessEmailRequest, hid, GetTemplateByID, hfind, callbackCalls]
    | document t =>
      cases hval : validateTemplateVariables t req.Variables with
      | some e => simp [ProcessEmailRequest, hid, GetTemplateByID, hfind, hval, callbackCalls]
      | none =>
        cases hsend : s.smtpSendEmail req.To t.Subject t.HTMLContent t.TextContent
            req.Variables with
        | some e =>
          simp [ProcessEmailRequest, hid, GetTemplateByID, hfind, hval, hsend, callbackCalls]
        | none =>
          by_cases h2 : req.CallbackURL = "" <;>
            simp [ProcessEmailRequest, hid, GetTemplateByID, hfind, hval, hsend, h2,
              callbackCalls]

/-- C11: two requests that differ only in `CallbackURL` get the same returned
value from `ProcessEmailRequest`; the value does not depend on what the
callback goroutine meets, and it is nil whenever the transport returned nil,
whatever happens to the callback; a callback is started exactly when the
returned value is nil and `CallbackURL` is not empty, hence only after the
transport has returned nil. -/
theorem C11_result_independent_of_callback (s : EmailService) (req1 req2 : EmailRequest)
    (hid : req1.TemplateID = req2.TemplateID) (hto : req1.To = req2.To)
    (hvars : req1.Variables = req2.Variables) :
    (ProcessEmailRequest s req1).1 = (ProcessEmailRequest s req2).1 ∧
      (∀ env1 env2 : CallbackEnv,
        (ProcessEmailRequestAndCallback s env1 req1).1 =
          (ProcessEmailRequestAndCallback s env2 req1).1) ∧
      (∀ (env : CallbackEnv) (id : ObjectID) (t : Template),
        ObjectIDFromHex req1.TemplateID = Except.ok id →
        s.findOne id = FindOneResult.document t →
        validateTemplateVariables t req1.Variables = none →
        s.smtpSendEmail req1.To t.Subject t.HTMLContent t.TextContent req1.Variables = none →
        (ProcessEmailRequestAndCallback s env req1).1 = none) ∧
      (callbackCalls (ProcessEmailRequest s req1).2 =
        if (ProcessEmailRequest s req1).1 = none ∧ req1.CallbackURL ≠ "" then
          [Call.GoHandleCallback req1.CallbackURL
            { MessageID := s.newObjectIDHex, Status := "delivered", SentAt := s.now }]
        else []) ∧
      (callbackCalls (ProcessEmailRequest s req1).2 ≠ [] →
        req1.CallbackURL ≠ "" ∧
        ∃ id t, ObjectIDFromHex req1.TemplateID = Except.ok id ∧
          s.findOne id = FindOneResult.document t ∧
          validateTemplateVariables t req1.Variables = none ∧
          s.smtpSendEmail req1.To t.Subject t.HTMLContent t.TextContent req1.Variables =
            none) := by
  refine ⟨?_, fun _ _ => rfl, ?_, callbackCalls_ProcessEmailRequest s req1, ?_⟩
  · have h2 : req2 = { req1 with CallbackURL := req2.CallbackURL } := by
      cases req1
      cases req2
      simp only [EmailRequest.mk.injEq] at *
      simp [hid, hto, hvars]
    rw [h2]
    exact (ProcessEmailRequest_fst_callback s req1 req2.CallbackURL).symm
  · intro env id t h1 h2 h3 h4
    exact (ProcessEmailRequest_nil_iff s req1).mpr ⟨id, t, h1, h2, h3, h4⟩
  · intro hne
    rw [callbackCalls_ProcessEmailRequest s req1] at hne
    by_cases hc : (ProcessEmailRequest s req1).1 = none ∧ req1.CallbackURL ≠ ""
    · exact ⟨hc.2, (ProcessEmailRequest_nil_iff s req1).mp hc.1⟩
    · simp [hc] at hne

theorem C11_witness :
    (ProcessEmailRequest sampleService (sampleRequest [("user", JSONValue.string "Ann")])).1 =
        (ProcessEmailRequest sampleService
          { sampleRequest [("user", JSONValue.string "Ann")] with
            CallbackURL := "http://caller.example.com/done" }).1 ∧
      (ProcessEmailRequestAndCallback sampleService failingCallbackEnv
          { sampleRequest [("user", JSONValue.string "Ann")] with
            CallbackURL := "http://caller.example.com/done" }).1 = none :=
  ⟨(C11_result_independent_of_callback sampleService
      (sampleRequest [("user", JSONValue.string "Ann")])
      { sampleRequest [("user", JSONValue.string "Ann")] with
        CallbackURL := "http://caller.example.com/done" } rfl rfl rfl).1,
    (C11_result_independent_of_callback sampleService
      { sampleRequest [("user", JSONValue.string "Ann")] with
        CallbackURL := "http://caller.example.com/done" }
      { sampleRequest [("user", JSONValue.string "Ann")] with
        CallbackURL := "http://caller.example.com/done" } rfl rfl rfl).2.2.1
      failingCallbackEnv sampleID sampleTemplate rfl rfl
      (by simp [validateTemplateVariables, validateLoop, sampleTemplate, sampleRequest,
        Variables.hasKey]) rfl⟩

/-! ## Rendering of the text body -/

theorem parseFrom_text_literal (pre : List Char)
    (h : ∀ c ∈ pre, c ≠ '\x7b' ∧ c ≠ '<') :
    ∀ acc rest : List Char,
      parseFrom (LexState.text acc) (pre ++ rest) =
        parseFrom (LexState.text (acc ++ pre)) rest := by
  induction pre with
  | nil => intro acc rest; simp
  | cons c cs ih =>
    intro acc rest
    have hc := h c (List.mem_cons_self _ _)
    have hrest := ih (fun d hd => h d (List.mem_cons_of_mem _ hd)) (acc ++ [c]) rest
    simp [parseFrom, hc.1, hc.2, hrest]

theorem parseFrom_user_action (acc rest : List Char) :
    parseFrom (LexState.text acc)
        (['\x7b', '\x7b', '.', 'u', 's', 'e', 'r', '\x7d', '\x7d'] ++ rest) =
      (parseFrom (LexState.text []) rest).map
        (fun ns => Node.Text acc :: Node.Field ['u', 's', 'e', 'r'] :: ns) := by
  have hu : isAlphaNumeric 'u' = true := by decide
  have hs : isAlphaNumeric 's' = true := by decide
  have he : isAlphaNumeric 'e' = true := by decide
  have hr : isAlphaNumeric 'r' = true := by decide
  have hc : isAlphaNumeric '\x7d' = false := by decide
  have hv : validName ['u', 's', 'e', 'r'] = true := by decide
  simp [parseFrom, hu, hs, he, hr, hc, hv]
  cases parseFrom (LexState.text []) rest <;> simp

theorem parseFrom_userTemplate (before after : String) (hb : isLiteral before)
    (ha : isLiteral after) :
    parseFrom (LexState.text []) (userTemplate before after).data =
      some [Node.Text before.data, Node.Field ['u', 's', 'e', 'r'], Node.Text after.data] := by
  have hdata : (userTemplate before after).data =
      before.data ++ (['\x7b', '\x7b', '.', 'u', 's', 'e', 'r', '\x7d', '\x7d'] ++
        (after.data ++ [])) := by
    simp [userTemplate, String.data_append]
  rw [hdata, parseFrom_text_literal before.data hb, parseFrom_user_action,
    parseFrom_text_literal after.data ha]
  simp [parseFrom]

/-- On a body made of literal text and the placeholder for `user`, with `user`
bound to a string, the rendering is the literal text around the escaped
value. -/
theorem htmlTemplateRender_userTemplate (library : String → Variables → TemplateResult)
    (before after value : String) (vars : Variables) (hb : isLiteral before)
    (ha : isLiteral after) (hv : vars.lookup "user" = some (JSONValue.string value)) :
    htmlTemplateRender library (userTemplate before after) vars =
      TemplateResult.output (before ++ htmlEscaper value ++ after) := by
  have hkey : (⟨['u', 's', 'e', 'r']⟩ : String) = "user" := rfl
  unfold htmlTemplateRender
  rw [parseFrom_userTemplate before after hb ha]
  simp [execNodes, hkey, hv, String.ext_iff, String.data_append]

theorem length_htmlReplacement_pos (c : Char) : 1 ≤ (htmlReplacement c).length := by
  unfold htmlReplacement
  split_ifs <;> simp

theorem length_htmlReplacement_special (c : Char) (h : isHtmlSpecial c = true) :
    4 ≤ (htmlReplacement c).length := by
  simp only [isHtmlSpecial, Bool.or_eq_true, decide_eq_true_eq] at h
  rcases h with ((((h | h) | h) | h) | h) | h <;> subst h <;> decide

theorem length_flatMap_htmlReplacement (l : List Char) :
    l.length ≤ (l.flatMap htmlReplacement).length := by
  induction l with
  | nil => simp
  | cons c cs ih =>
    have := length_htmlReplacement_pos c
    simp only [List.flatMap_cons, List.length_append, List.length_cons]
    omega

theorem length_flatMap_htmlReplacement_lt (l : List Char)
    (h : ∃ c ∈ l, isHtmlSpecial c = true) :
    l.length < (l.flatMap htmlReplacement).length := by
  induction l with
  | nil => obtain ⟨c, hc, _⟩ := h; cases hc
  | cons c cs ih =>
    simp only [List.flatMap_cons, List.length_append, List.length_cons]
    by_cases hc : isHtmlSpecial c = true
    · have h4 := length_htmlReplacement_special c hc
      have := length_flatMap_htmlReplacement cs
      omega
    · have h1 := length_htmlReplacement_pos c
      have hcs : ∃ d ∈ cs, isHtmlSpecial d = true := by
        obtain ⟨d, hd, hsp⟩ := h
        rcases List.mem_cons.mp hd with heq | hmem
        · subst heq; exact absurd hsp hc
        · exact ⟨d, hmem, hsp⟩
      have := ih hcs
      omega

theorem htmlEscaper_of_plain (value : String)
    (h : ∀ c ∈ value.data, isHtmlSpecial c = false ∧ c ≠ Char.ofNat 0) :
    htmlEscaper value = value := by
  have hl : ∀ l : List Char, (∀ c ∈ l, isHtmlSpecial c = false ∧ c ≠ Char.ofNat 0) →
      l.flatMap htmlReplacement = l := by
    intro l
    induction l with
    | nil => intro _; rfl
    | cons c cs ih =>
      intro hall
      have hc := hall c (List.mem_cons_self _ _)
      have hrep : htmlReplacement c = [c] := by
        have hsp := hc.1
        simp only [isHtmlSpecial, Bool.or_eq_false_iff, decide_eq_false_iff_not] at hsp
        obtain ⟨⟨⟨⟨⟨h1, h2⟩, h3⟩, h4⟩, h5⟩, h6⟩ := hsp
        simp [htmlReplacement, h1, h2, h3, h4, h5, h6, hc.2]
      simp [List.flatMap_cons, hrep, ih (fun d hd => hall d (List.mem_cons_of_mem _ hd))]
  unfold htmlEscaper
  rw [hl value.data h]

/-- C12: for a text body made of literal text and the placeholder for `user`,
with `user` bound to a string, the `text/plain` part handed to `smtp.SendMail`
is the literal text around the value as `html/template` escapes it for HTML,
not around the value itself: the two agree when the value has none of the
characters the escaper replaces, and differ as soon as it has a double quote,
ampersand, apostrophe, plus, `<` or `>`. -/
theorem C12_text_part_is_html_escaped (c : SMTPClient)
    (library : String → Variables → TemplateResult)
    (sendMail : SendMailCall → Option String) (recipients : List String)
    (subject htmlContent htmlBuffer before after value : String) (vars : Variables)
    (hb : isLiteral before) (ha : isLiteral after)
    (hv : vars.lookup "user" = some (JSONValue.string value))
    (hhtml : htmlTemplateRender library htmlContent vars = TemplateResult.output htmlBuffer) :
    htmlTemplateRender library (userTemplate before after) vars =
        TemplateResult.output (before ++ htmlEscaper value ++ after) ∧
      (SendEmail c library sendMail recipients subject htmlContent
          (userTemplate before after) vars).2 =
        [{ addr := c.host ++ ":" ++ sprintfD c.port, username := c.username,
           password := c.password, host := c.host, fromAddr := c.fromAddr,
           recipients := recipients,
           msg := mimeMessage c recipients subject (before ++ htmlEscaper value ++ after)
             htmlBuffer }] ∧
      ((∀ ch ∈ value.data, isHtmlSpecial ch = false ∧ ch ≠ Char.ofNat 0) →
        before ++ htmlEscaper value ++ after = plainExpansion before value after) ∧
      ((∃ ch ∈ value.data, isHtmlSpecial ch = true) →
        before ++ htmlEscaper value ++ after ≠ plainExpansion before value after) := by
  have htext := htmlTemplateRender_userTemplate library before after value vars hb ha hv
  refine ⟨htext, ?_, ?_, ?_⟩
  · unfold SendEmail
    rw [hhtml, htext]
    simp only []
    cases sendMail _ <;> rfl
  · intro hplain
    rw [htmlEscaper_of_plain value hplain]
    rfl
  · intro hspecial heq
    have hlt := length_flatMap_htmlReplacement_lt value.data hspecial
    have hlen := congrArg (fun x : String => x.data.length) heq
    simp only [plainExpansion, String.data_append, List.length_append, htmlEscaper] at hlen
    omega

theorem C12_witness :
    htmlTemplateRender sampleLibrary "Hello \x7b\x7b.user\x7d\x7d"
        [("user", JSONValue.string "Tom & Ann")] =
      TemplateResult.output "Hello Tom &amp; Ann" ∧
    "Hello Tom &amp; Ann" ≠ plainExpansion "Hello " "Tom & Ann" "" :=
  ⟨(C12_text_part_is_html_escaped sampleClient sampleLibrary (fun _ => none)
      ["ann@example.com"] "Welcome" "Hi \x7b\x7b.user\x7d\x7d" "Hi Tom &amp; Ann"
      "Hello " "" "Tom & Ann" [("user", JSONValue.string "Tom & Ann")]
      (by unfold isLiteral; decide) (by unfold isLiteral; decide) rfl rfl).1,
    (C12_text_part_is_html_escaped sampleClient sampleLibrary (fun _ => none)
      ["ann@example.com"] "Welcome" "Hi \x7b\x7b.user\x7d\x7d" "Hi Tom &amp; Ann"
      "Hello " "" "Tom & Ann" [("user", JSONValue.string "Tom & Ann")]
      (by unfold isLiteral; decide) (by unfold isLiteral; decide) rfl rfl).2.2.2
      ⟨'&', by decide, by decide⟩⟩

end PrismaEmail
